import Mathlib

/-!
Verification development for the firefly event-aggregation core.

The embedding covers:
* the batch aggregator (`SequencedBroadcastBatch`, `persistBatch`,
  `persistBatchData`, `persistBatchMessage` from the `aggregator` package);
* the WebSocket transport `start` handler (package `websockets`);
* the consumer-side WebSocket client ack frame (the TypeScript
  event-streams client);
* the subscription store contract (`UpsertSubscription` /
  `GetSubscription`), modelled from the spec because only its tests are in
  the sources.

Database calls made by the aggregator are resolved by an explicit
environment (`Env`), and each call performed is recorded in a trace of
`Op` values, so that theorems can speak both about the value returned by
`persistBatch` and about which store operations it performed.
-/

namespace Firefly

/-- fftypes.TransactionTypePin: the transaction type anchoring a batch. -/
def transactionTypePin : String := "pin"

/-- fftypes.TransactionStatusConfirmed. -/
def transactionStatusConfirmed : String := "confirmed"

/-- A transaction reference inside a batch payload (fftypes.TransactionRef):
only the fields read by the aggregator are embedded. `id` is a pointer in
the source, hence `Option`. UUIDs are embedded as `Nat`. -/
structure TXRef where
  txtype : String
  id : Option Nat
deriving DecidableEq

/-- fftypes.Data: `value` is the JSON value (embedded as a string),
`hash` is a pointer in the source, hence `Option`. Hashes are embedded as
`Nat`. -/
structure Data where
  id : Nat
  hash : Option Nat
  value : String
deriving DecidableEq

/-- fftypes.MessageHeader: only the `id` field is read by the aggregator. -/
structure MsgHeader where
  id : Nat
deriving DecidableEq

/-- fftypes.Message: only the fields read or written by the aggregator are
embedded (`header.id` for logging, `confirmed` and `batchID` which it
sets, `hash` which the store compares). -/
structure Message where
  header : MsgHeader
  hash : Option Nat
  batchID : Option Nat
  confirmed : Option Nat
deriving DecidableEq

/-- fftypes.BatchPayload: `tx`, the data array and the message array.
Entries are pointers in the source (may be nil), hence `Option`. -/
structure BatchPayload where
  tx : TXRef
  data : List (Option Data)
  messages : List (Option Message)
deriving DecidableEq

/-- fftypes.Batch as read by the aggregator. `id`, `hash` and `confirmed`
are pointers in the source, hence `Option`. -/
structure Batch where
  id : Option Nat
  «namespace» : String
  author : String
  hash : Option Nat
  payload : BatchPayload
  confirmed : Option Nat
deriving DecidableEq

/-- fftypes.TransactionSubject. `batch` is a pointer to a UUID. -/
structure TransactionSubject where
  txtype : String
  author : String
  «namespace» : String
  batch : Option Nat
deriving DecidableEq

/-- fftypes.Transaction as read and written by the aggregator. `info` is
embedded opaquely as a string. -/
structure Transaction where
  id : Option Nat
  subject : TransactionSubject
  hash : Option Nat
  confirmed : Option Nat
  protocolID : String
  info : String
  status : String
deriving DecidableEq

/-- fftypes.Event. The aggregator sources contain no event insertion, but
the operation type below still has an `insertEvent` constructor so that
claims about event insertion are statable against the trace. -/
structure Event where
  etype : String
  ref : Nat
  «namespace» : String
  created : Nat
deriving DecidableEq

/-- Result of one upsert call against the database plugin: success, the
sentinel `database.HashMismatch`, or any other (transient, retryable)
error carrying its message. -/
inductive DBResult where
  | ok
  | hashMismatch
  | otherErr (e : String)
deriving DecidableEq

/-- Result of `GetTransactionById`: a found record, a not-found (nil, nil)
result, or a database error. The aggregator discards the error component
(`tx, _ := a.database.GetTransactionById(...)`), so `dbErr` and `notFound`
flow identically through `persistBatch` — but the trace records which one
occurred. -/
inductive GetTxResult where
  | found (t : Transaction)
  | notFound
  | dbErr (e : String)
deriving DecidableEq

/-- One database operation performed by the aggregator, with the flag it
passed and the result the store returned. -/
inductive Op where
  | upsertBatch (b : Batch) (allowHashUpdate : Bool) (res : DBResult)
  | getTransactionById (ns : String) (id : Nat) (res : GetTxResult)
  | upsertTransaction (t : Transaction) (allowHashUpdate : Bool) (res : DBResult)
  | upsertData (d : Data) (allowHashUpdate : Bool) (res : DBResult)
  | upsertMessage (m : Message) (allowHashUpdate : Bool) (res : DBResult)
  | insertEvent (e : Event)
deriving DecidableEq

/-- The environment resolving the aggregator's database calls: the result
each call would get from the store. -/
structure Env where
  upsertBatch : Batch → DBResult
  getTransactionById : String → Nat → GetTxResult
  upsertTransaction : Transaction → DBResult
  upsertData : Data → DBResult
  upsertMessage : Message → DBResult

/-- Modelled from the spec: the hash and verification functions of the
`fftypes` package (`Payload.Hash`, `Value.Hash`, `Subject.Hash`,
`Message.Verify`) are not among the sources, so they are abstracted as an
explicit parameter. `valueHash` returns `none` when hashing errors (the
`err != nil` case of `data.Value.Hash`), `verify` returns `some e` when
`msg.Verify(ctx)` fails with error `e`. -/
structure Crypto where
  payloadHash : BatchPayload → Nat
  valueHash : String → Option Nat
  subjectHash : TransactionSubject → Nat
  verify : Message → Option String

/-- Embedding of `aggregator.persistBatchData`: hash-invalid or nil
entries are skipped (no store call); `HashMismatch` from the upsert is
skipped; other upsert errors are returned. The first component is the Go
error return (`none` = nil), the second the store operations performed. -/
def persistBatchData (env : Env) (c : Crypto) (data : Option Data) :
    Option String × List Op :=
  match data with
  | none => (none, [])
  | some d =>
    match c.valueHash d.value, d.hash with
    | none, _ => (none, [])
    | some _, none => (none, [])
    | some h, some dh =>
      if dh ≠ h then (none, [])
      else
        match env.upsertData d with
        | .ok => (none, [.upsertData d false .ok])
        | .hashMismatch => (none, [.upsertData d false .hashMismatch])
        | .otherErr e => (some e, [.upsertData d false (.otherErr e)])

/-- Embedding of `aggregator.persistBatchMessage`: nil or `Verify`-failing
entries are skipped; the message is upserted with `confirmed = now` and
`batchID = batch.id` set; `HashMismatch` is skipped; other upsert errors
are returned. -/
def persistBatchMessage (env : Env) (c : Crypto) (batch : Batch) (now : Nat)
    (msg : Option Message) : Option String × List Op :=
  match msg with
  | none => (none, [])
  | some m =>
    match c.verify m with
    | some _ => (none, [])
    | none =>
      let m' : Message := { m with confirmed := some now, batchID := batch.id }
      match env.upsertMessage m' with
      | .ok => (none, [.upsertMessage m' false .ok])
      | .hashMismatch => (none, [.upsertMessage m' false .hashMismatch])
      | .otherErr e => (some e, [.upsertMessage m' false (.otherErr e)])

/-- The entry loops of `persistBatch`: run `f` over the entries in order,
stopping at the first entry returning a non-nil error (`if err = ...;
return err` in the source), concatenating the performed operations. -/
def runEntries (f : α → Option String × List Op) : List α → Option String × List Op
  | [] => (none, [])
  | x :: xs =>
    match f x with
    | (some e, ops) => (some e, ops)
    | (none, ops) =>
      match runEntries f xs with
      | (r, ops2) => (r, ops ++ ops2)

/-- "Set the updates on the transaction" (`persistBatch`, source lines
192–196): `confirmed = now`, `protocolID`, `info`, `status = confirmed`. -/
def updTx (t0 : Transaction) (now : Nat) (protocolTxId info : String) : Transaction :=
  { t0 with confirmed := some now, protocolID := protocolTxId,
            info := info, status := transactionStatusConfirmed }

/-- The tail of `aggregator.persistBatch` from "Set the updates on the
transaction" onward: update the transaction record `t0` via `updTx`,
upsert it with `allowHashUpdate=false` (`HashMismatch` skips the batch,
other errors are returned), then run the data and message entry loops.
`opsPre` is the trace accumulated so far. -/
def persistBatchFromTx (env : Env) (c : Crypto) (batch : Batch) (now : Nat)
    (opsPre : List Op) (t0 : Transaction) (protocolTxId info : String) :
    Option String × List Op :=
  match env.upsertTransaction (updTx t0 now protocolTxId info) with
  | .hashMismatch =>
    (none, opsPre ++ [.upsertTransaction (updTx t0 now protocolTxId info) false .hashMismatch])
  | .otherErr e =>
    (some e, opsPre ++ [.upsertTransaction (updTx t0 now protocolTxId info) false (.otherErr e)])
  | .ok =>
    match runEntries (persistBatchData env c) batch.payload.data with
    | (some e, opsD) =>
      (some e, (opsPre ++ [.upsertTransaction (updTx t0 now protocolTxId info) false .ok]) ++ opsD)
    | (none, opsD) =>
      match runEntries (persistBatchMessage env c batch now) batch.payload.messages with
      | (rm, opsM) =>
        (rm, (opsPre ++ [.upsertTransaction (updTx t0 now protocolTxId info) false .ok]) ++ opsD ++ opsM)

/-- The transaction record `persistBatch` constructs when no existing
record is found (source: "We're the first to write the transaction record
on this node"): subject `{type=pin, author, namespace, batch}` and
`tx.Hash = tx.Subject.Hash()`; the remaining fields are zero values until
`updTx` sets them. -/
def newPinTx (c : Crypto) (author ns : String) (bid txid : Nat) : Transaction :=
  let subj : TransactionSubject :=
    { txtype := transactionTypePin, author := author, «namespace» := ns, batch := some bid }
  { id := some txid, subject := subj, hash := some (c.subjectHash subj),
    confirmed := none, protocolID := "", info := "", status := "" }

/-- Embedding of `aggregator.persistBatch`. `now` stands for
`fftypes.Now()`; `info` (the `additionalInfo` map) is embedded opaquely.
Mirrors the source exactly: id/hash/author validation first (no store
call), then `UpsertBatch` with `allowHashUpdate=false`, then
`GetTransactionById` whose error component is discarded, then the
transaction construct-or-check, and finally `persistBatchFromTx`. -/
def persistBatch (env : Env) (c : Crypto) (now : Nat) (batch : Batch)
    (author protocolTxId : String) (info : String) : Option String × List Op :=
  match batch.id, batch.payload.tx.id with
  | none, _ => (none, [])
  | some _, none => (none, [])
  | some bid, some txid =>
    match batch.hash with
    | none => (none, [])
    | some bh =>
      if bh ≠ c.payloadHash batch.payload then (none, [])
      else if batch.author ≠ author then (none, [])
      else
        let b' : Batch := { batch with confirmed := some now }
        match env.upsertBatch b' with
        | .hashMismatch => (none, [.upsertBatch b' false .hashMismatch])
        | .otherErr e => (some e, [.upsertBatch b' false (.otherErr e)])
        | .ok =>
          let getRes := env.getTransactionById batch.«namespace» txid
          let opsPre : List Op :=
            [.upsertBatch b' false .ok,
             .getTransactionById batch.«namespace» txid getRes]
          let txOpt : Option Transaction :=
            match getRes with
            | .found t => some t
            | .notFound => none
            | .dbErr _ => none
          let txNewOrOk : Option Transaction :=
            match txOpt with
            | none => some (newPinTx c author batch.«namespace» bid txid)
            | some t =>
              if t.subject.txtype ≠ transactionTypePin ∨
                 t.subject.author ≠ author ∨
                 t.subject.«namespace» ≠ batch.«namespace» ∨
                 t.subject.batch = none ∨
                 t.subject.batch ≠ some bid
              then none else some t
          match txNewOrOk with
          | none => (none, opsPre)
          | some t0 => persistBatchFromTx env c batch now opsPre t0 protocolTxId info

/-- The retryable (non-sentinel) error carried by an upsert operation, if
any. Note `getTransactionById` never carries one: its error is discarded
by the source. -/
def Op.retryErr : Op → Option String
  | .upsertBatch _ _ (.otherErr e) => some e
  | .upsertTransaction _ _ (.otherErr e) => some e
  | .upsertData _ _ (.otherErr e) => some e
  | .upsertMessage _ _ (.otherErr e) => some e
  | _ => none

/-- The `allowHashUpdate` flag an upsert operation was called with
(`none` for non-upsert operations). -/
def Op.allowFlag : Op → Option Bool
  | .upsertBatch _ f _ => some f
  | .upsertTransaction _ f _ => some f
  | .upsertData _ f _ => some f
  | .upsertMessage _ f _ => some f
  | _ => none

/-- Whether the operation is an event insertion. -/
def Op.isInsertEvent : Op → Bool
  | .insertEvent _ => true
  | _ => false

/-- Whether the operation is a batch or transaction upsert that hit the
`HashMismatch` sentinel. -/
def Op.isBatchOrTxHashMismatch : Op → Bool
  | .upsertBatch _ _ .hashMismatch => true
  | .upsertTransaction _ _ .hashMismatch => true
  | _ => false

/-! ### WebSocket transport (`internal/events/websockets`) -/

/-- fftypes.SubscriptionRef. -/
structure SubscriptionRef where
  «namespace» : String
  name : String
deriving DecidableEq

/-- fftypes.WSClientActionStartPayload: the fields read by `start`.
`filter` and `options` are embedded opaquely. -/
structure WSClientActionStartPayload where
  ephemeral : Bool
  «namespace» : String
  name : String
  filter : String
  options : String

/-- The error returned by the `start` handler: the typed
`MsgWSInvalidStartAction` error, or an error propagated from the
`EphemeralSubscription` callback. -/
inductive WSErr where
  | invalidStartAction
  | callback (e : String)
deriving DecidableEq

/-- A call made by the transport into the connection-manager callbacks. -/
inductive WSCallback where
  | ephemeralSubscription (connID : String) (filter : String) (options : String)
  | registerConnection (connID : String) (matcher : SubscriptionRef → Bool)

/-- Embedding of `WebSockets.start` (websockets.go lines 88–98): ephemeral
starts go straight to `EphemeralSubscription`; otherwise empty namespace
or name is `MsgWSInvalidStartAction`; otherwise a matcher comparing both
fields of the `SubscriptionRef` is registered. `ephRes` is the result the
`EphemeralSubscription` callback would return. -/
def start (ephRes : Option WSErr) (connID : String) (s : WSClientActionStartPayload) :
    Option WSErr × List WSCallback :=
  if s.ephemeral then
    (ephRes, [.ephemeralSubscription connID s.filter s.options])
  else if s.«namespace» = "" ∨ s.name = "" then
    (some .invalidStartAction, [])
  else
    (none, [.registerConnection connID
      (fun sr => sr.«namespace» == s.«namespace» && sr.name == s.name)])

/-! ### The consumer-side WebSocket client (TypeScript `event-streams.ts`) -/

/-- The frame the TypeScript client sends when the socket opens
(`event-streams.ts` lines 27–30): `JSON.stringify({type:'listen', topic})`,
embedded as an association list of JSON keys to string values. -/
def tsListenFrame (configTopic : String) : List (String × String) :=
  [("type", "listen"), ("topic", configTopic)]

/-- The single frame the TypeScript client sends after handling any
`message` event (`event-streams.ts` lines 37–42):
`JSON.stringify({type:'ack', topic: config.eventStreams.topic})`. The
frame depends only on the configured topic, never on the received
delivery. -/
def tsAckFrameForMessage (configTopic : String) (_message : String) :
    List (String × String) :=
  [("type", "ack"), ("topic", configTopic)]

/-! ### Subscription store (`UpsertSubscription`/`GetSubscription`)

Modelled from the spec: the `sqlcommon` subscription CRUD implementation
is not among the sources (only `TestSubscriptionsE2EWithDB` and the other
tests are), so the store contract of spec §4.4 is embedded directly: rows
keyed by `(namespace, name)`; update in place when a row exists;
`IDMismatch` when a non-null caller id differs from the stored id;
insert otherwise. -/

/-- fftypes.SubscriptionFilter. -/
structure SubscriptionFilter where
  events : String
  topic : String
  context : String
  group : String
deriving DecidableEq

/-- fftypes.SubscriptionOptions. -/
structure SubscriptionOptions where
  firstEvent : Option String
  batchEnabled : Option Bool
  batchTimeout : Option String
  batchSize : Option Nat
deriving DecidableEq

/-- fftypes.Subscription. UUIDs are embedded as `Nat`; `id` is nullable. -/
structure Subscription where
  id : Option Nat
  «namespace» : String
  name : String
  transport : String
  filter : SubscriptionFilter
  options : SubscriptionOptions
  created : Nat
deriving DecidableEq

/-- Modelled from the spec: `GetSubscription(ctx, namespace, name)` — the
first row whose `(namespace, name)` matches, `none` when absent. -/
def getSubscription (store : List Subscription) (ns name : String) : Option Subscription :=
  store.find? (fun r => r.«namespace» == ns && r.name == name)

/-- Outcome of `UpsertSubscription`: the new store contents, or the
sentinel `database.IDMismatch`. -/
inductive SubUpsertResult where
  | ok (store : List Subscription)
  | idMismatch
deriving DecidableEq

/-- Modelled from the spec (§4.4): "if an existing row has the same
`(namespace, name)`, update in place; if the caller-supplied `id` is
non-null and differs from the stored id, fail with `IDMismatch`;
otherwise insert." -/
def upsertSubscription (store : List Subscription) (sub : Subscription) : SubUpsertResult :=
  match getSubscription store sub.«namespace» sub.name with
  | none => .ok (store ++ [sub])
  | some row =>
    if sub.id.isSome && sub.id != row.id then .idMismatch
    else .ok (store.map fun r =>
      if r.«namespace» == sub.«namespace» && r.name == sub.name then sub else r)

/-- JSON rendering of a nullable number. -/
def jsonOptNat : Option Nat → String
  | none => "null"
  | some n => toString n

/-- JSON rendering of a nullable boolean. -/
def jsonOptBool : Option Bool → String
  | none => "null"
  | some true => "true"
  | some false => "false"

/-- JSON rendering of a nullable string. -/
def jsonOptStr : Option String → String
  | none => "null"
  | some s => "\"" ++ s ++ "\""

/-- Modelled from the spec: the canonical JSON encoding of a Subscription
(`json.Marshal` is not among the sources). Field order is fixed, so two
subscriptions encode to byte-equal strings exactly when the records are
equal. -/
def subscriptionJson (s : Subscription) : String :=
  "\x7b\"id\":" ++ jsonOptNat s.id ++
  ",\"namespace\":\"" ++ s.«namespace» ++
  "\",\"name\":\"" ++ s.name ++
  "\",\"transport\":\"" ++ s.transport ++
  "\",\"filter\":\x7b\"events\":\"" ++ s.filter.events ++
  "\",\"topic\":\"" ++ s.filter.topic ++
  "\",\"context\":\"" ++ s.filter.context ++
  "\",\"group\":\"" ++ s.filter.group ++
  "\"\x7d,\"options\":\x7b\"firstEvent\":" ++ jsonOptStr s.options.firstEvent ++
  ",\"batchEnabled\":" ++ jsonOptBool s.options.batchEnabled ++
  ",\"batchTimeout\":" ++ jsonOptStr s.options.batchTimeout ++
  ",\"batchSize\":" ++ jsonOptNat s.options.batchSize ++
  "\x7d,\"created\":" ++ toString s.created ++ "\x7d"

/-! ### `SequencedBroadcastBatch` (the aggregator entry point) -/

/-- blockchain.BroadcastBatch: the fields read by
`SequencedBroadcastBatch`. `batchID` is the raw byte slice the source
copies 16 bytes from; `batchPaylodRef` keeps the source's spelling. -/
structure BroadcastBatch where
  batchID : List Nat
  batchPaylodRef : String
deriving DecidableEq

/-- Outcome of the retried `publicstorage.RetrieveData` loop: the payload
body, or the context-cancellation error after which `retry.Do` gives up. -/
inductive RetrieveResult where
  | ok (body : String)
  | ctxCancelled (e : String)
deriving DecidableEq

/-- External operations performed by `SequencedBroadcastBatch`. -/
inductive AggOp where
  | retrieveData (ref : String)
  | runPersistGroup
deriving DecidableEq

/-- Result of `SequencedBroadcastBatch` in the guarded embedding:
`sliceOutOfRange` stands for the panic of `batch.BatchID[0:16]` on a
short slice; `retrieveErr` is the error returned when the retrieve loop
is cancelled; `parseSwallowed` is the nil return on undecodable payload;
`groupResult` carries the outcome of the retried `RunAsGroup` loop. -/
inductive SBBOutcome where
  | sliceOutOfRange
  | retrieveErr (e : String)
  | parseSwallowed
  | groupResult (e : Option String)
deriving DecidableEq

/-- The environment of `SequencedBroadcastBatch`: the retried retrieve
outcome, the JSON decode outcome, and the outcome of the retried
`RunAsGroup`/`persistBatch` loop. -/
structure AggEnv where
  retrieveData : String → RetrieveResult
  decodePayload : String → Option Batch
  persistGroup : Batch → String → String → String → Option String

/-- Embedding of `aggregator.SequencedBroadcastBatch` (source lines
96–129). The first statement reads `batch.BatchID[0:16]`: the guarded
embedding returns `sliceOutOfRange` when fewer than 16 bytes are
available, before any retrieval or persistence; otherwise it retrieves
the payload (retried until success or context cancellation), decodes it
(failure is logged and swallowed), and runs the persist group. -/
def sequencedBroadcastBatch (env : AggEnv) (batch : BroadcastBatch)
    (author protocolTxId info : String) : SBBOutcome × List AggOp :=
  if batch.batchID.length < 16 then (.sliceOutOfRange, [])
  else
    match env.retrieveData batch.batchPaylodRef with
    | .ctxCancelled e => (.retrieveErr e, [.retrieveData batch.batchPaylodRef])
    | .ok body =>
      match env.decodePayload body with
      | none => (.parseSwallowed, [.retrieveData batch.batchPaylodRef])
      | some batchData =>
        (.groupResult (env.persistGroup batchData author protocolTxId info),
         [.retrieveData batch.batchPaylodRef, .runPersistGroup])

/-! ### Concrete fixtures used by the witnesses below -/

/-- A store environment where every operation succeeds and no transaction
record exists yet. -/
def envAllOk : Env :=
  ⟨fun _ => .ok, fun _ _ => .notFound, fun _ => .ok, fun _ => .ok, fun _ => .ok⟩

/-- A store environment whose `GetTransactionById` fails with a transient
error while all upserts succeed. -/
def envGetErr : Env :=
  ⟨fun _ => .ok, fun _ _ => .dbErr "pop", fun _ => .ok, fun _ => .ok, fun _ => .ok⟩

/-- A store environment whose data upserts hit the `HashMismatch`
sentinel. -/
def envDataHM : Env :=
  ⟨fun _ => .ok, fun _ _ => .notFound, fun _ => .ok, fun _ => .hashMismatch, fun _ => .ok⟩

/-- A store environment whose batch upsert fails with a transient
error. -/
def envUbErr : Env :=
  ⟨fun _ => .otherErr "pop", fun _ _ => .notFound, fun _ => .ok, fun _ => .ok, fun _ => .ok⟩

/-- A trivial hash/verification model: every hash is `0`, every message
verifies. -/
def cryptoTest : Crypto :=
  ⟨fun _ => 0, fun _ => some 0, fun _ => 0, fun _ => none⟩

/-- A valid batch with one message entry and no data entries. -/
def batchC1 : Batch :=
  ⟨some 1, "ns1", "A", some 0, ⟨⟨"pin", some 2⟩, [], [some ⟨⟨5⟩, some 7, none, none⟩]⟩, none⟩

/-- A valid batch with no entries. -/
def batchC2 : Batch :=
  ⟨some 1, "ns1", "A", some 0, ⟨⟨"pin", some 2⟩, [], []⟩, none⟩

/-- A stored subscription row, as created in `TestSubscriptionsE2EWithDB`
(namespace `ns1`, name `subscription1`, generated id). -/
def subRow1 : Subscription :=
  ⟨some 10, "ns1", "subscription1", "", ⟨"", "", "", ""⟩, ⟨none, none, none, none⟩, 0⟩

/-- An updated subscription for the same `(namespace, name)` carrying a
different, non-null id — the `IDMismatch` scenario of the test. -/
def subNew1 : Subscription :=
  ⟨some 11, "ns1", "subscription1", "websockets",
   ⟨"DataArrivedBroadcast", "topic.*", "context.*", "group.*"⟩,
   ⟨some "newest", some true, some "500ms", some 50⟩, 1⟩

/-- Every store operation performed by `persistBatchData` is a data upsert
with `allowHashUpdate = false`. -/
theorem persistBatchData_shape (env : Env) (c : Crypto) (d : Option Data) :
    ∀ op ∈ (persistBatchData env c d).2, ∃ d' r, op = Op.upsertData d' false r := by
  intro op hop
  unfold persistBatchData at hop
  repeat' split at hop
  all_goals simp at hop
  all_goals exact ⟨_, _, hop⟩

/-- When `persistBatchData` returns nil, none of its operations failed
with a retryable error. -/
theorem persistBatchData_none (env : Env) (c : Crypto) (d : Option Data)
    (h : (persistBatchData env c d).1 = none) :
    ∀ op ∈ (persistBatchData env c d).2, op.retryErr = none := by
  intro op hop
  rcases d with _ | d0
  · simp [persistBatchData] at hop
  · rcases hv : c.valueHash d0.value with _ | hh
    · simp [persistBatchData, hv] at hop
    · rcases hd : d0.hash with _ | dh
      · simp [persistBatchData, hv, hd] at hop
      · by_cases hne : dh = hh
        · rcases hu : env.upsertData d0 with _ | _ | e
          · simp [persistBatchData, hv, hd, hne, hu] at hop
            subst hop; simp [Op.retryErr]
          · simp [persistBatchData, hv, hd, hne, hu] at hop
            subst hop; simp [Op.retryErr]
          · simp [persistBatchData, hv, hd, hne, hu] at h
        · simp [persistBatchData, hv, hd, hne] at hop

/-- When `persistBatchData` returns an error, its trace is exactly the one
failing upsert. -/
theorem persistBatchData_some (env : Env) (c : Crypto) (d : Option Data) (e : String)
    (h : (persistBatchData env c d).1 = some e) :
    ∃ d', persistBatchData env c d = (some e, [Op.upsertData d' false (.otherErr e)]) := by
  rcases d with _ | d0
  · simp [persistBatchData] at h
  · rcases hv : c.valueHash d0.value with _ | hh
    · simp [persistBatchData, hv] at h
    · rcases hd : d0.hash with _ | dh
      · simp [persistBatchData, hv, hd] at h
      · by_cases hne : dh = hh
        · rcases hu : env.upsertData d0 with _ | _ | e'
          · simp [persistBatchData, hv, hd, hne, hu] at h
          · simp [persistBatchData, hv, hd, hne, hu] at h
          · simp only [persistBatchData, hv, hd, hne, hu] at h ⊢
            simp at h
            subst h
            exact ⟨d0, by simp [hne]⟩
        · simp [persistBatchData, hv, hd, hne] at h

/-- Every store operation performed by `persistBatchMessage` is a message
upsert with `allowHashUpdate = false`. -/
theorem persistBatchMessage_shape (env : Env) (c : Crypto) (batch : Batch)
    (now : Nat) (m : Option Message) :
    ∀ op ∈ (persistBatchMessage env c batch now m).2,
      ∃ m' r, op = Op.upsertMessage m' false r := by
  intro op hop
  rcases m with _ | m0
  · simp [persistBatchMessage] at hop
  · rcases hverif : c.verify m0 with _ | e0
    · rcases hu : env.upsertMessage { m0 with confirmed := some now, batchID := batch.id } with _ | _ | e
      all_goals simp [persistBatchMessage, hverif, hu] at hop
      all_goals exact ⟨_, _, hop⟩
    · simp [persistBatchMessage, hverif] at hop

/-- When `persistBatchMessage` returns nil, none of its operations failed
with a retryable error. -/
theorem persistBatchMessage_none (env : Env) (c : Crypto) (batch : Batch)
    (now : Nat) (m : Option Message)
    (h : (persistBatchMessage env c batch now m).1 = none) :
    ∀ op ∈ (persistBatchMessage env c batch now m).2, op.retryErr = none := by
  intro op hop
  rcases m with _ | m0
  · simp [persistBatchMessage] at hop
  · rcases hverif : c.verify m0 with _ | e0
    · rcases hu : env.upsertMessage { m0 with confirmed := some now, batchID := batch.id } with _ | _ | e
      · simp [persistBatchMessage, hverif, hu] at hop
        subst hop; simp [Op.retryErr]
      · simp [persistBatchMessage, hverif, hu] at hop
        subst hop; simp [Op.retryErr]
      · simp [persistBatchMessage, hverif, hu] at h
    · simp [persistBatchMessage, hverif] at hop

/-- When `persistBatchMessage` returns an error, its trace is exactly the
one failing upsert. -/
theorem persistBatchMessage_some (env : Env) (c : Crypto) (batch : Batch)
    (now : Nat) (m : Option Message) (e : String)
    (h : (persistBatchMessage env c batch now m).1 = some e) :
    ∃ m', persistBatchMessage env c batch now m =
      (some e, [Op.upsertMessage m' false (.otherErr e)]) := by
  rcases m with _ | m0
  · simp [persistBatchMessage] at h
  · rcases hverif : c.verify m0 with _ | e0
    · rcases hu : env.upsertMessage { m0 with confirmed := some now, batchID := batch.id } with _ | _ | e'
      · simp [persistBatchMessage, hverif, hu] at h
      · simp [persistBatchMessage, hverif, hu] at h
      · simp only [persistBatchMessage, hverif, hu] at h ⊢
        simp at h
        subst h
        exact ⟨{ m0 with confirmed := some now, batchID := batch.id }, by simp [hu]⟩
    · simp [persistBatchMessage, hverif] at h

/-- Operations of an entry loop all come from some entry. -/
theorem runEntries_mem (f : α → Option String × List Op) (l : List α) :
    ∀ op ∈ (runEntries f l).2, ∃ x ∈ l, op ∈ (f x).2 := by
  induction l with
  | nil => simp [runEntries]
  | cons x xs ih =>
    intro op hop
    unfold runEntries at hop
    rcases hf : f x with ⟨r, ops⟩
    rw [hf] at hop
    rcases r with _ | e
    · rcases hr : runEntries f xs with ⟨r2, ops2⟩
      rw [hr] at hop
      simp only [List.mem_append] at hop
      rcases hop with h | h
      · exact ⟨x, by simp, by rw [hf]; exact h⟩
      · rcases ih op (by rw [hr]; exact h) with ⟨y, hy, hopy⟩
        exact ⟨y, by simp [hy], hopy⟩
    · exact ⟨x, by simp, by rw [hf]; exact hop⟩

/-- When an entry loop returns nil, all recorded operations satisfy any
property preserved by nil-returning entries. -/
theorem runEntries_none (f : α → Option String × List Op) (l : List α)
    (P : Op → Prop) (hf : ∀ x, (f x).1 = none → ∀ op ∈ (f x).2, P op) :
    (runEntries f l).1 = none → ∀ op ∈ (runEntries f l).2, P op := by
  induction l with
  | nil => simp [runEntries]
  | cons x xs ih =>
    intro hnone op hop
    unfold runEntries at hnone hop
    rcases hf' : f x with ⟨r, ops⟩
    rw [hf'] at hnone hop
    rcases r with _ | e
    · rcases hr : runEntries f xs with ⟨r2, ops2⟩
      rw [hr] at hnone hop
      simp only [List.mem_append] at hop
      rcases hop with h | h
      · exact hf x (by rw [hf']) op (by rw [hf']; exact h)
      · exact ih (by rw [hr]; simpa using hnone) op (by rw [hr]; exact h)
    · simp at hnone

/-- When an entry loop returns an error, its trace ends with the single
failing operation of the entry that produced the error. -/
theorem runEntries_some (f : α → Option String × List Op) (l : List α)
    (e : String) (P : Op → Prop)
    (hf : ∀ x, (f x).1 = some e → ∃ op, (f x).2 = [op] ∧ P op) :
    (runEntries f l).1 = some e →
    ∃ op, (runEntries f l).2.getLast? = some op ∧ P op := by
  induction l with
  | nil => simp [runEntries]
  | cons x xs ih =>
    unfold runEntries
    rcases hf' : f x with ⟨_ | e', ops⟩
    · rcases hr : runEntries f xs with ⟨r2, ops2⟩
      dsimp only
      intro hsome
      rcases ih (by rw [hr]; exact hsome) with ⟨op, hlast, hP⟩
      rw [hr] at hlast
      refine ⟨op, ?_, hP⟩
      have hne : ops2 ≠ [] := by
        intro hnil
        rw [hnil] at hlast
        simp at hlast
      simp only [List.getLast?_append_of_ne_nil _ hne]
      exact hlast
    · dsimp only
      intro hsome
      have he : e' = e := by simpa using hsome
      subst he
      rcases hf x (by rw [hf']) with ⟨op, hops, hP⟩
      rw [hf'] at hops
      dsimp only at hops
      subst hops
      exact ⟨op, rfl, hP⟩

/-- The error-handling invariant of the aggregator's store traffic:
every upsert passes `allowHashUpdate=false`; no event is inserted; a nil
return means no operation failed with a retryable error; a non-nil return
means the trace ends with the upsert that failed with exactly that
retryable error; a `HashMismatch` on the batch or transaction upsert ends
the trace with a nil return. -/
def persistBatchInv (p : Option String × List Op) : Prop :=
  (∀ op ∈ p.2, op.allowFlag ≠ some true ∧ op.isInsertEvent = false) ∧
  (p.1 = none → ∀ op ∈ p.2, op.retryErr = none) ∧
  (∀ e, p.1 = some e →
    ∃ op, p.2.getLast? = some op ∧ op.retryErr = some e ∧ op.allowFlag = some false) ∧
  (∀ op ∈ p.2, op.isBatchOrTxHashMismatch = true → p.1 = none ∧ p.2.getLast? = some op)

/-- The tail stage of `persistBatch` preserves the invariant, given a
clean accumulated prefix. -/
theorem persistBatchFromTx_inv (env : Env) (c : Crypto) (batch : Batch) (now : Nat)
    (opsPre : List Op) (t0 : Transaction) (ptx info : String)
    (hpre : ∀ op ∈ opsPre, op.allowFlag ≠ some true ∧ op.isInsertEvent = false ∧
      op.retryErr = none ∧ op.isBatchOrTxHashMismatch = false) :
    persistBatchInv (persistBatchFromTx env c batch now opsPre t0 ptx info) := by
  rcases hut : env.upsertTransaction (updTx t0 now ptx info) with _ | _ | e0
  · -- transaction upsert succeeded: the entry loops run
    rcases hrd : runEntries (persistBatchData env c) batch.payload.data with ⟨rd, opsD⟩
    have hmemD := runEntries_mem (persistBatchData env c) batch.payload.data
    rw [hrd] at hmemD
    have hshapeD : ∀ op ∈ opsD, ∃ d' r, op = Op.upsertData d' false r := by
      intro op hop
      rcases hmemD op hop with ⟨x, _, hx⟩
      exact persistBatchData_shape env c x op hx
    rcases rd with _ | e
    · rcases hrm : runEntries (persistBatchMessage env c batch now) batch.payload.messages
        with ⟨rm, opsM⟩
      have hmemM := runEntries_mem (persistBatchMessage env c batch now) batch.payload.messages
      rw [hrm] at hmemM
      have hshapeM : ∀ op ∈ opsM, ∃ m' r, op = Op.upsertMessage m' false r := by
        intro op hop
        rcases hmemM op hop with ⟨x, _, hx⟩
        exact persistBatchMessage_shape env c batch now x op hx
      simp only [persistBatchFromTx, hut, hrd, hrm]
      have hops : ∀ op ∈ (opsPre ++ [Op.upsertTransaction (updTx t0 now ptx info) false .ok])
          ++ opsD ++ opsM,
          op.allowFlag ≠ some true ∧ op.isInsertEvent = false ∧
          op.isBatchOrTxHashMismatch = false := by
        intro op hop
        rcases List.mem_append.1 hop with hop' | hM
        · rcases List.mem_append.1 hop' with hop'' | hD
          · rcases List.mem_append.1 hop'' with hP | hT
            · exact ⟨(hpre op hP).1, (hpre op hP).2.1, (hpre op hP).2.2.2⟩
            · simp only [List.mem_singleton] at hT
              subst hT
              simp [Op.allowFlag, Op.isInsertEvent, Op.isBatchOrTxHashMismatch]
          · rcases hshapeD op hD with ⟨d', r, rfl⟩
            simp [Op.allowFlag, Op.isInsertEvent, Op.isBatchOrTxHashMismatch]
        · rcases hshapeM op hM with ⟨m', r, rfl⟩
          simp [Op.allowFlag, Op.isInsertEvent, Op.isBatchOrTxHashMismatch]
      refine ⟨fun op hop => ⟨(hops op hop).1, (hops op hop).2.1⟩, ?_, ?_, ?_⟩
      · -- nil return: no retryable failure anywhere in the trace
        intro hnil op hop
        rcases List.mem_append.1 hop with hop' | hM
        · rcases List.mem_append.1 hop' with hop'' | hD
          · rcases List.mem_append.1 hop'' with hP | hT
            · exact (hpre op hP).2.2.1
            · simp only [List.mem_singleton] at hT
              subst hT
              simp [Op.retryErr]
          · refine runEntries_none (persistBatchData env c) batch.payload.data _
              (fun x hx => persistBatchData_none env c x hx) ?_ op ?_
            · rw [hrd]
            · rw [hrd]; exact hD
        · refine runEntries_none (persistBatchMessage env c batch now) batch.payload.messages _
            (fun x hx => persistBatchMessage_none env c batch now x hx) ?_ op ?_
          · rw [hrm]; exact hnil
          · rw [hrm]; exact hM
      · -- non-nil return: the message loop failed; its last op carries e
        intro e he
        have hrmE : rm = some e := by simpa using he
        subst hrmE
        have hsomeM : (runEntries (persistBatchMessage env c batch now)
            batch.payload.messages).1 = some e := by rw [hrm]
        rcases runEntries_some (persistBatchMessage env c batch now) batch.payload.messages e
          (fun op => op.retryErr = some e ∧ op.allowFlag = some false)
          (fun x hx => by
            rcases persistBatchMessage_some env c batch now x e hx with ⟨m', hm'⟩
            exact ⟨Op.upsertMessage m' false (.otherErr e), by rw [hm'],
              by simp [Op.retryErr], by simp [Op.allowFlag]⟩) hsomeM
          with ⟨opBad, hlast, hPBad⟩
        rw [hrm] at hlast
        have hneM : opsM ≠ [] := by
          intro hnil
          rw [hnil] at hlast
          simp at hlast
        refine ⟨opBad, ?_, hPBad.1, hPBad.2⟩
        simp only [List.getLast?_append_of_ne_nil _ hneM]
        exact hlast
      · intro op hop hbm
        exact absurd hbm (by simp [(hops op hop).2.2])
    · -- the data loop failed with error e
      simp only [persistBatchFromTx, hut, hrd]
      have hsomeD : (runEntries (persistBatchData env c) batch.payload.data).1 = some e := by
        rw [hrd]
      rcases runEntries_some (persistBatchData env c) batch.payload.data e
        (fun op => op.retryErr = some e ∧ op.allowFlag = some false)
        (fun x hx => by
          rcases persistBatchData_some env c x e hx with ⟨d', hd'⟩
          exact ⟨Op.upsertData d' false (.otherErr e), by rw [hd'],
            by simp [Op.retryErr], by simp [Op.allowFlag]⟩) hsomeD
        with ⟨opBad, hlast, hPBad⟩
      rw [hrd] at hlast
      have hneD : opsD ≠ [] := by
        intro hnil
        rw [hnil] at hlast
        simp at hlast
      refine ⟨?_, ?_, ?_, ?_⟩
      · intro op hop
        rcases List.mem_append.1 hop with hop' | hD
        · rcases List.mem_append.1 hop' with hP | hT
          · exact ⟨(hpre op hP).1, (hpre op hP).2.1⟩
          · simp only [List.mem_singleton] at hT
            subst hT
            simp [Op.allowFlag, Op.isInsertEvent]
        · rcases hshapeD op hD with ⟨d', r, rfl⟩
          simp [Op.allowFlag, Op.isInsertEvent]
      · intro hnil
        simp at hnil
      · intro e' he'
        have : e = e' := by simpa using he'
        subst this
        refine ⟨opBad, ?_, hPBad.1, hPBad.2⟩
        simp only [List.getLast?_append_of_ne_nil _ hneD]
        exact hlast
      · intro op hop hbm
        exfalso
        rcases List.mem_append.1 hop with hop' | hD
        · rcases List.mem_append.1 hop' with hP | hT
          · exact absurd hbm (by simp [(hpre op hP).2.2.2])
          · simp only [List.mem_singleton] at hT
            subst hT
            simp [Op.isBatchOrTxHashMismatch] at hbm
        · rcases hshapeD op hD with ⟨d', r, rfl⟩
          simp [Op.isBatchOrTxHashMismatch] at hbm
  · -- transaction upsert hit HashMismatch: skip the batch
    simp only [persistBatchFromTx, hut]
    refine ⟨?_, ?_, ?_, ?_⟩
    · intro op hop
      rcases List.mem_append.1 hop with hP | hT
      · exact ⟨(hpre op hP).1, (hpre op hP).2.1⟩
      · simp only [List.mem_singleton] at hT
        subst hT
        simp [Op.allowFlag, Op.isInsertEvent]
    · intro _ op hop
      rcases List.mem_append.1 hop with hP | hT
      · exact (hpre op hP).2.2.1
      · simp only [List.mem_singleton] at hT
        subst hT
        simp [Op.retryErr]
    · intro e he
      simp at he
    · intro op hop hbm
      rcases List.mem_append.1 hop with hP | hT
      · exact absurd hbm (by simp [(hpre op hP).2.2.2])
      · simp only [List.mem_singleton] at hT
        subst hT
        exact ⟨rfl, List.getLast?_concat _⟩
  · -- transaction upsert failed with a retryable error
    simp only [persistBatchFromTx, hut]
    refine ⟨?_, ?_, ?_, ?_⟩
    · intro op hop
      rcases List.mem_append.1 hop with hP | hT
      · exact ⟨(hpre op hP).1, (hpre op hP).2.1⟩
      · simp only [List.mem_singleton] at hT
        subst hT
        simp [Op.allowFlag, Op.isInsertEvent]
    · intro hnil
      simp at hnil
    · intro e he
      have : e0 = e := by simpa using he
      subst this
      exact ⟨Op.upsertTransaction (updTx t0 now ptx info) false (.otherErr e0),
        List.getLast?_concat _, by simp [Op.retryErr], by simp [Op.allowFlag]⟩
    · intro op hop hbm
      exfalso
      rcases List.mem_append.1 hop with hP | hT
      · exact absurd hbm (by simp [(hpre op hP).2.2.2])
      · simp only [List.mem_singleton] at hT
        subst hT
        simp [Op.isBatchOrTxHashMismatch] at hbm

/-- `persistBatch` satisfies the error-handling invariant for every
environment, hash model, batch and author. -/
theorem persistBatch_inv (env : Env) (c : Crypto) (now : Nat) (batch : Batch)
    (author ptx info : String) :
    persistBatchInv (persistBatch env c now batch author ptx info) := by
  have invNil : persistBatchInv (none, ([] : List Op)) := by
    refine ⟨?_, ?_, ?_, ?_⟩ <;> simp
  rcases hbid : batch.id with _ | bid
  · simpa [persistBatch, hbid] using invNil
  · rcases htxid : batch.payload.tx.id with _ | txid
    · simpa [persistBatch, hbid, htxid] using invNil
    · rcases hbh : batch.hash with _ | bh
      · simpa [persistBatch, hbid, htxid, hbh] using invNil
      · by_cases hh : bh = c.payloadHash batch.payload
        case neg => simpa [persistBatch, hbid, htxid, hbh, hh] using invNil
        case pos =>
        subst hh
        by_cases ha : batch.author = author
        case neg => simpa [persistBatch, hbid, htxid, hbh, ha] using invNil
        case pos =>
        subst ha
        rcases hub : env.upsertBatch { batch with confirmed := some now } with _ | _ | e
        · -- batch upsert ok: transaction record is loaded
          simp only [hbid, hbh] at hub
          rcases hget : env.getTransactionById batch.«namespace» txid with t | _ | ge
          · -- an existing transaction record was found
            simp only [persistBatch, hbid, htxid, hbh]
            simp [hub, hget]
            split
            · -- subject mismatch: skip the batch after the two reads
              refine ⟨?_, ?_, ?_, ?_⟩
              · intro op hop
                simp only [List.mem_cons, List.mem_singleton, List.not_mem_nil, or_false] at hop
                rcases hop with rfl | rfl <;> simp [Op.allowFlag, Op.isInsertEvent]
              · intro _ op hop
                simp only [List.mem_cons, List.mem_singleton, List.not_mem_nil, or_false] at hop
                rcases hop with rfl | rfl <;> simp [Op.retryErr]
              · intro e he
                simp at he
              · intro op hop hbm
                exfalso
                simp only [List.mem_cons, List.mem_singleton, List.not_mem_nil, or_false] at hop
                rcases hop with rfl | rfl <;> simp [Op.isBatchOrTxHashMismatch] at hbm
            · rename_i t2 heq
              have ht2 : t2 = t := by
                split at heq
                · exact absurd heq (by simp)
                · simpa using heq.symm
              subst ht2
              refine persistBatchFromTx_inv env c batch now _ t2 ptx info ?_
              intro op hop
              simp only [List.mem_cons, List.mem_singleton, List.not_mem_nil, or_false] at hop
              rcases hop with rfl | rfl <;>
                simp [Op.allowFlag, Op.isInsertEvent, Op.retryErr, Op.isBatchOrTxHashMismatch]
          · -- no existing record: a fresh transaction is constructed
            simp only [persistBatch, hbid, htxid, hbh]
            simp [hub, hget]
            refine persistBatchFromTx_inv env c batch now _ _ ptx info ?_
            intro op hop
            simp only [List.mem_cons, List.mem_singleton, List.not_mem_nil, or_false] at hop
            rcases hop with rfl | rfl <;>
              simp [Op.allowFlag, Op.isInsertEvent, Op.retryErr, Op.isBatchOrTxHashMismatch]
          · -- the read failed: the source discards the error and proceeds as absent
            simp only [persistBatch, hbid, htxid, hbh]
            simp [hub, hget]
            refine persistBatchFromTx_inv env c batch now _ _ ptx info ?_
            intro op hop
            simp only [List.mem_cons, List.mem_singleton, List.not_mem_nil, or_false] at hop
            rcases hop with rfl | rfl <;>
              simp [Op.allowFlag, Op.isInsertEvent, Op.retryErr, Op.isBatchOrTxHashMismatch]
        · -- batch upsert hit HashMismatch: skip
          simp only [hbid, hbh] at hub
          simp only [persistBatch, hbid, htxid, hbh]
          simp [hub]
          refine ⟨?_, ?_, ?_, ?_⟩
          · intro op hop
            simp only [List.mem_singleton] at hop
            subst hop
            simp [Op.allowFlag, Op.isInsertEvent]
          · intro _ op hop
            simp only [List.mem_singleton] at hop
            subst hop
            simp [Op.retryErr]
          · intro e he
            simp at he
          · intro op hop hbm
            simp only [List.mem_singleton] at hop
            subst hop
            exact ⟨rfl, rfl⟩
        · -- batch upsert failed with a retryable error
          simp only [hbid, hbh] at hub
          simp only [persistBatch, hbid, htxid, hbh]
          simp [hub]
          refine ⟨?_, ?_, ?_, ?_⟩
          · intro op hop
            simp only [List.mem_singleton] at hop
            subst hop
            simp [Op.allowFlag, Op.isInsertEvent]
          · intro hnil
            simp at hnil
          · intro e' he
            have : e = e' := by simpa using he
            subst this
            exact ⟨_, rfl, by simp [Op.retryErr], by simp [Op.allowFlag]⟩
          · intro op hop hbm
            exfalso
            simp only [List.mem_singleton] at hop
            subst hop
            simp [Op.isBatchOrTxHashMismatch] at hbm

/-! ### Claim theorems -/

/-- C1 (counterexample): a batch passing every validation, with one
message entry that is accepted (non-null, `Verify` succeeds, upsert
succeeds), makes `persistBatch` return nil — yet the store trace contains
the accepted message's upsert and no Event insertion at all, contradicting
the claim that a `message-confirmed` event is inserted for each accepted
message. -/
theorem c1_counterexample :
    (persistBatch envAllOk cryptoTest 0 batchC1 "A" "p" "i").1 = none ∧
    Op.upsertMessage ⟨⟨5⟩, some 7, some 1, some 0⟩ false .ok ∈
      (persistBatch envAllOk cryptoTest 0 batchC1 "A" "p" "i").2 ∧
    ((persistBatch envAllOk cryptoTest 0 batchC1 "A" "p" "i").2.all
      fun op => !op.isInsertEvent) = true := by decide

/-- C1 (amended): `persistBatch` inserts no Event records whatsoever: for
every environment, hash model, batch and author, its store trace contains
no event insertion (accepted messages are recorded only through
`UpsertMessage`). -/
theorem c1_theorem (env : Env) (c : Crypto) (now : Nat) (batch : Batch)
    (author ptx info : String) :
    ((persistBatch env c now batch author ptx info).2.all
      fun op => !op.isInsertEvent) = true := by
  rw [List.all_eq_true]
  intro op hop
  have h := ((persistBatch_inv env c now batch author ptx info).1 op hop).2
  simp [h]

/-- C2 (counterexample): `GetTransactionById` fails with a non-sentinel
error, yet `persistBatch` returns nil — the source discards the read's
error (`tx, _ := a.database.GetTransactionById(...)`) and proceeds as if
no record existed, so the claim fails for reads. -/
theorem c2_counterexample :
    (persistBatch envGetErr cryptoTest 0 batchC2 "A" "p" "i").1 = none ∧
    Op.getTransactionById "ns1" 2 (.dbErr "pop") ∈
      (persistBatch envGetErr cryptoTest 0 batchC2 "A" "p" "i").2 := by decide

/-- C2 (amended): `persistBatch` never swallows a transient failure of an
*upsert*: whenever it returns nil, no upsert operation in its trace failed
with a non-sentinel error (the `GetTransactionById` read's error, by
contrast, is discarded, as the counterexample shows). -/
theorem c2_theorem (env : Env) (c : Crypto) (now : Nat) (batch : Batch)
    (author ptx info : String)
    (h : (persistBatch env c now batch author ptx info).1 = none) :
    ∀ op ∈ (persistBatch env c now batch author ptx info).2, op.retryErr = none :=
  (persistBatch_inv env c now batch author ptx info).2.1 h

/-- Witness for C2: on a concrete run that returns nil, the message
upsert op in the trace carries no retryable error. -/
theorem c2_witness :
    (persistBatch envAllOk cryptoTest 0 batchC1 "A" "p" "i").1 = none ∧
    (Op.upsertMessage ⟨⟨5⟩, some 7, some 1, some 0⟩ false .ok).retryErr = none :=
  ⟨by decide,
   c2_theorem envAllOk cryptoTest 0 batchC1 "A" "p" "i" (by decide)
     (Op.upsertMessage ⟨⟨5⟩, some 7, some 1, some 0⟩ false .ok) (by decide)⟩

/-- C3: a batch with a missing id, a missing payload tx id, a hash that is
null or differs from the recomputed payload hash, or an author differing
from the ledger-supplied author, makes `persistBatch` return nil with an
empty store trace: no upsert (nor read) is performed. -/
theorem c3_theorem (env : Env) (c : Crypto) (now : Nat) (batch : Batch)
    (author ptx info : String)
    (h : batch.id = none ∨ batch.payload.tx.id = none ∨
      batch.hash ≠ some (c.payloadHash batch.payload) ∨ batch.author ≠ author) :
    persistBatch env c now batch author ptx info = (none, []) := by
  rcases hbid : batch.id with _ | bid
  · simp [persistBatch, hbid]
  · rcases htxid : batch.payload.tx.id with _ | txid
    · simp [persistBatch, hbid, htxid]
    · rcases hbh : batch.hash with _ | bh
      · simp [persistBatch, hbid, htxid, hbh]
      · by_cases hh : bh = c.payloadHash batch.payload
        · have hauth : batch.author ≠ author := by
            rcases h with h | h | h | h
            · rw [hbid] at h; simp at h
            · rw [htxid] at h; simp at h
            · rw [hbh, hh] at h; exact absurd rfl h
            · exact h
          simp [persistBatch, hbid, htxid, hbh, hh, hauth]
        · simp [persistBatch, hbid, htxid, hbh, hh]

/-- Witness for C3: a concrete batch whose author differs from the
ledger-supplied author is skipped with no store operation. -/
theorem c3_witness :
    persistBatch envAllOk cryptoTest 0 batchC2 "B" "p" "i" = (none, []) :=
  c3_theorem envAllOk cryptoTest 0 batchC2 "B" "p" "i"
    (Or.inr (Or.inr (Or.inr (by decide))))

/-- C4: every upsert in the trace passes `allowHashUpdate = false`; a
`HashMismatch` on the batch or transaction upsert ends the run with a nil
return; any other upsert failure is returned to the caller (the trace ends
with exactly that failing upsert); and a `HashMismatch` on a data or
message upsert yields a nil (skip) result for that entry so the enclosing
loop continues. -/
theorem c4_theorem (env : Env) (c : Crypto) (now : Nat) (batch : Batch)
    (author ptx info : String) :
    (∀ op ∈ (persistBatch env c now batch author ptx info).2, op.allowFlag ≠ some true) ∧
    (∀ op ∈ (persistBatch env c now batch author ptx info).2,
      op.isBatchOrTxHashMismatch = true →
        (persistBatch env c now batch author ptx info).1 = none ∧
        (persistBatch env c now batch author ptx info).2.getLast? = some op) ∧
    (∀ e, (persistBatch env c now batch author ptx info).1 = some e →
      ∃ op, (persistBatch env c now batch author ptx info).2.getLast? = some op ∧
        op.retryErr = some e ∧ op.allowFlag = some false) ∧
    (∀ d, env.upsertData d = .hashMismatch → (persistBatchData env c (some d)).1 = none) ∧
    (∀ m, env.upsertMessage { m with confirmed := some now, batchID := batch.id } = .hashMismatch →
      (persistBatchMessage env c batch now (some m)).1 = none) := by
  have hinv := persistBatch_inv env c now batch author ptx info
  refine ⟨fun op hop => (hinv.1 op hop).1, hinv.2.2.2, hinv.2.2.1, ?_, ?_⟩
  · intro d hd
    rcases hv : c.valueHash d.value with _ | hh
    · simp [persistBatchData, hv]
    · rcases hdh : d.hash with _ | dh
      · simp [persistBatchData, hv, hdh]
      · by_cases hne : dh = hh
        · simp [persistBatchData, hv, hdh, hne, hd]
        · simp [persistBatchData, hv, hdh, hne]
  · intro m hm
    rcases hverif : c.verify m with _ | e0
    · simp [persistBatchMessage, hverif, hm]
    · simp [persistBatchMessage, hverif]

/-- Witness for C4: a data upsert hitting `HashMismatch` is skipped with a
nil entry result, and a batch upsert failing with "pop" surfaces as the
final failing op of the trace. -/
theorem c4_witness :
    (persistBatchData envDataHM cryptoTest (some ⟨1, some 0, "v"⟩)).1 = none ∧
    (∃ op, (persistBatch envUbErr cryptoTest 0 batchC2 "A" "p" "i").2.getLast? = some op ∧
      op.retryErr = some "pop" ∧ op.allowFlag = some false) :=
  ⟨(c4_theorem envDataHM cryptoTest 0 batchC2 "A" "p" "i").2.2.2.1 ⟨1, some 0, "v"⟩ (by decide),
   (c4_theorem envUbErr cryptoTest 0 batchC2 "A" "p" "i").2.2.1 "pop" (by decide)⟩

/-- C5: under passing validations and a successful batch upsert, when no
transaction record exists for `(batch.namespace, payload.tx.id)` the
record upserted next is exactly the constructed pin transaction — subject
`{type=pin, author, namespace, batch=batch.id}` with subject-derived hash,
then updated by `updTx`; when an existing record is found whose subject
does not match (type pin, ledger author, batch namespace, non-null batch
pointer equal to `batch.id`), `persistBatch` returns nil right after the
read, upserting no transaction. -/
theorem c5_theorem (env : Env) (c : Crypto) (now : Nat) (batch : Batch)
    (author ptx info : String) (bid txid : Nat)
    (hbid : batch.id = some bid) (htxid : batch.payload.tx.id = some txid)
    (hbh : batch.hash = some (c.payloadHash batch.payload))
    (ha : batch.author = author)
    (hub : env.upsertBatch { batch with confirmed := some now } = .ok) :
    (env.getTransactionById batch.«namespace» txid = .notFound →
      (persistBatch env c now batch author ptx info).2.take 3 =
        [Op.upsertBatch { batch with confirmed := some now } false .ok,
         Op.getTransactionById batch.«namespace» txid .notFound,
         Op.upsertTransaction (updTx (newPinTx c author batch.«namespace» bid txid) now ptx info)
           false
           (env.upsertTransaction (updTx (newPinTx c author batch.«namespace» bid txid) now ptx info))]) ∧
    (∀ t, env.getTransactionById batch.«namespace» txid = .found t →
      ¬(t.subject.txtype = transactionTypePin ∧ t.subject.author = author ∧
        t.subject.«namespace» = batch.«namespace» ∧ t.subject.batch = some bid) →
      persistBatch env c now batch author ptx info =
        (none, [Op.upsertBatch { batch with confirmed := some now } false .ok,
                Op.getTransactionById batch.«namespace» txid (.found t)])) := by
  subst ha
  simp only [hbid, hbh] at hub
  constructor
  · intro hget
    simp [persistBatch, hbid, htxid, hbh, hub, hget]
    rcases hut : env.upsertTransaction
        (updTx (newPinTx c batch.author batch.«namespace» bid txid) now ptx info) with _ | _ | e
    · rcases hrd : runEntries (persistBatchData env c) batch.payload.data with ⟨_ | e, opsD⟩
      · rcases hrm : runEntries (persistBatchMessage env c batch now) batch.payload.messages
          with ⟨rm, opsM⟩
        simp [persistBatchFromTx, hut, hrd, hrm]
      · simp [persistBatchFromTx, hut, hrd]
    · simp [persistBatchFromTx, hut]
    · simp [persistBatchFromTx, hut]
  · intro t hget hnm
    simp [persistBatch, hbid, htxid, hbh, hub, hget]
    split
    · rfl
    · rename_i t2 heq
      split at heq
      · simp at heq
      · rename_i hcond
        exfalso
        push_neg at hcond
        exact hnm ⟨hcond.1, hcond.2.1, hcond.2.2.1, hcond.2.2.2.2⟩

/-- Witness for C5: on a concrete run with no pre-existing transaction
record, the third store operation is the upsert of the constructed pin
transaction. -/
theorem c5_witness :
    (persistBatch envAllOk cryptoTest 0 batchC2 "A" "p" "i").2.take 3 =
      [Op.upsertBatch { batchC2 with confirmed := some 0 } false .ok,
       Op.getTransactionById batchC2.«namespace» 2 .notFound,
       Op.upsertTransaction (updTx (newPinTx cryptoTest "A" batchC2.«namespace» 1 2) 0 "p" "i")
         false
         (envAllOk.upsertTransaction
           (updTx (newPinTx cryptoTest "A" batchC2.«namespace» 1 2) 0 "p" "i"))] :=
  (c5_theorem envAllOk cryptoTest 0 batchC2 "A" "p" "i" 1 2 rfl rfl rfl rfl rfl).1 rfl

/-- `find?` over a keyed replacement: when a row with the key exists, the
replaced list's first key match is the replacement. -/
theorem find?_map_replace (store : List Subscription) (ns name : String)
    (row subR : Subscription)
    (h : store.find? (fun r => r.«namespace» == ns && r.name == name) = some row)
    (hns : subR.«namespace» = ns) (hname : subR.name = name) :
    (store.map fun r =>
      if r.«namespace» == ns && r.name == name then subR else r).find?
      (fun r => r.«namespace» == ns && r.name == name) = some subR := by
  induction store with
  | nil => simp at h
  | cons x xs ih =>
    by_cases hx : (x.«namespace» == ns && x.name == name) = true
    · have hpred : (subR.«namespace» == ns && subR.name == name) = true := by
        simp [hns, hname]
      simp only [List.map_cons, if_pos hx]
      simp only [List.find?, hpred]
    · have hx' : (x.«namespace» == ns && x.name == name) = false := by
        simpa using hx
      simp only [List.find?, hx'] at h
      simp only [List.map_cons, if_neg hx]
      simp only [List.find?, hx']
      exact ih h

/-- `find?` skips a prefix in which nothing matches. -/
theorem find?_append_right (l1 l2 : List Subscription)
    (p : Subscription → Bool) (h : l1.find? p = none) :
    (l1 ++ l2).find? p = l2.find? p := by
  induction l1 with
  | nil => simp
  | cons x xs ih =>
    rcases hpx : p x with _ | _
    · simp only [List.find?, hpx] at h
      simp only [List.cons_append, List.find?, hpx]
      exact ih h
    · simp only [List.find?, hpx] at h
      simp at h

/-- C6: when a row with the same `(namespace, name)` exists and the caller
supplies a non-null id differing from the stored one, `upsertSubscription`
returns the `IDMismatch` sentinel (leaving the store untouched, since no
new contents are produced); the subsequent call with a null id succeeds
and updates the row in place, so the stored row is exactly the update. -/
theorem c6_theorem (store : List Subscription) (row sub : Subscription) (j : Nat)
    (hget : getSubscription store sub.«namespace» sub.name = some row)
    (hid : sub.id = some j) (hne : row.id ≠ some j) :
    upsertSubscription store sub = .idMismatch ∧
    ∃ store', upsertSubscription store { sub with id := none } = .ok store' ∧
      getSubscription store' sub.«namespace» sub.name = some { sub with id := none } := by
  constructor
  · have hcond : (sub.id.isSome && sub.id != row.id) = true := by
      rw [hid]
      simp [bne_iff_ne]
      exact fun hcontra => hne hcontra.symm
    simp only [upsertSubscription, hget]
    rw [if_pos hcond]
  · have hresult : upsertSubscription store { sub with id := none } =
        .ok (store.map fun r =>
          if r.«namespace» == sub.«namespace» && r.name == sub.name
          then { sub with id := none } else r) := by
      simp [upsertSubscription, hget]
    refine ⟨_, hresult, ?_⟩
    exact find?_map_replace store sub.«namespace» sub.name row
      { sub with id := none } hget rfl rfl

/-- Witness for C6: the concrete `IDMismatch` scenario of
`TestSubscriptionsE2EWithDB` — stored id 10, supplied id 11; then the
null-id retry updates in place. -/
theorem c6_witness :
    upsertSubscription [subRow1] subNew1 = .idMismatch ∧
    ∃ store', upsertSubscription [subRow1] { subNew1 with id := none } = .ok store' ∧
      getSubscription store' subNew1.«namespace» subNew1.name =
        some { subNew1 with id := none } :=
  c6_theorem [subRow1] subRow1 subNew1 11 (by decide) (by decide) (by decide)

/-- C9: persist-then-read-back is the identity up to JSON encoding — after
a successful `upsertSubscription`, reading the subscription back by
`(namespace, name)` and JSON-encoding it yields a string byte-equal to the
JSON encoding of the subscription that was persisted. -/
theorem c9_theorem (store store' : List Subscription) (sub : Subscription)
    (h : upsertSubscription store sub = .ok store') :
    (getSubscription store' sub.«namespace» sub.name).map subscriptionJson =
      some (subscriptionJson sub) := by
  rcases hget : getSubscription store sub.«namespace» sub.name with _ | row
  · simp only [upsertSubscription, hget] at h
    cases h
    have hfind := find?_append_right store [sub]
      (fun r => r.«namespace» == sub.«namespace» && r.name == sub.name) hget
    have hsub : ([sub].find?
        (fun r => r.«namespace» == sub.«namespace» && r.name == sub.name)) = some sub := by
      simp
    unfold getSubscription
    rw [hfind, hsub]
    rfl
  · simp only [upsertSubscription, hget] at h
    by_cases hc : (sub.id.isSome && sub.id != row.id) = true
    · rw [if_pos hc] at h
      simp at h
    · rw [if_neg hc] at h
      cases h
      have := find?_map_replace store sub.«namespace» sub.name row sub hget rfl rfl
      unfold getSubscription
      rw [this]
      rfl

/-- Witness for C9: upserting a concrete subscription into an empty store
and reading it back yields a byte-equal JSON encoding. -/
theorem c9_witness :
    (getSubscription [subRow1] subRow1.«namespace» subRow1.name).map subscriptionJson =
      some (subscriptionJson subRow1) :=
  c9_theorem [] [subRow1] subRow1 (by decide)

/-- C7: the `start` handler creates an ephemeral subscription without any
namespace/name validation when `ephemeral` is set; otherwise an empty
namespace or name yields the typed `InvalidStartAction` error with nothing
registered; otherwise it registers a matcher admitting exactly the
`SubscriptionRef`s whose namespace and name both equal the start
payload's. -/
theorem c7_theorem (ephRes : Option WSErr) (connID : String)
    (s : WSClientActionStartPayload) :
    (s.ephemeral = true →
      start ephRes connID s = (ephRes, [.ephemeralSubscription connID s.filter s.options])) ∧
    (s.ephemeral = false → (s.«namespace» = "" ∨ s.name = "") →
      start ephRes connID s = (some .invalidStartAction, [])) ∧
    (s.ephemeral = false → s.«namespace» ≠ "" → s.name ≠ "" →
      ∃ m, start ephRes connID s = (none, [.registerConnection connID m]) ∧
        ∀ sr : SubscriptionRef,
          m sr = true ↔ (sr.«namespace» = s.«namespace» ∧ sr.name = s.name)) := by
  refine ⟨?_, ?_, ?_⟩
  · intro he
    simp [start, he]
  · intro he hempty
    simp [start, he, hempty]
  · intro he hns hname
    refine ⟨fun sr => sr.«namespace» == s.«namespace» && sr.name == s.name, ?_, ?_⟩
    · simp [start, he, hns, hname]
    · intro sr
      simp [Bool.and_eq_true, beq_iff_eq]

/-- Witness for C7: an ephemeral start with empty namespace and name still
reaches the ephemeral-subscription callback; an empty namespace on a
non-ephemeral start is rejected; a well-formed start registers a matcher
admitting exactly its own `(namespace, name)`. -/
theorem c7_witness :
    start none "c1" ⟨true, "", "", "f", "o"⟩ =
      (none, [.ephemeralSubscription "c1" "f" "o"]) ∧
    start none "c1" ⟨false, "", "s1", "", ""⟩ = (some .invalidStartAction, []) ∧
    ∃ m, start none "c1" ⟨false, "ns1", "s1", "", ""⟩ =
        (none, [.registerConnection "c1" m]) ∧
      m ⟨"ns1", "s1"⟩ = true ∧ m ⟨"ns2", "s1"⟩ = false := by
  refine ⟨(c7_theorem none "c1" _).1 rfl,
    (c7_theorem none "c1" _).2.1 rfl (Or.inl rfl), ?_⟩
  obtain ⟨m, hm, hiff⟩ :=
    (c7_theorem none "c1" ⟨false, "ns1", "s1", "", ""⟩).2.2 rfl (by decide) (by decide)
  refine ⟨m, hm, (hiff ⟨"ns1", "s1"⟩).mpr ⟨rfl, rfl⟩, ?_⟩
  by_cases hb : m ⟨"ns2", "s1"⟩ = true
  · exact absurd ((hiff ⟨"ns2", "s1"⟩).mp hb).1 (by decide)
  · simpa using hb

/-- C8 (counterexample): the ack frame the TypeScript consumer client
sends for a delivery carries the configured topic and no `id` key at all —
it does not echo the application-level id of the delivery, contradicting
the claimed `{type:"ack", id}` shape. -/
theorem c8_counterexample :
    (tsAckFrameForMessage "topic1" "delivery-with-id-abc").lookup "id" = none ∧
    (tsAckFrameForMessage "topic1" "delivery-with-id-abc").lookup "topic" = some "topic1" ∧
    (tsAckFrameForMessage "topic1" "delivery-with-id-abc").lookup "type" = some "ack" := by
  decide

/-- C8 (amended): every ack frame the consumer client sends has exactly
the shape `{type:"ack", topic: configured topic}`, independent of the
delivery being acknowledged, and carries no `id` field. -/
theorem c8_theorem (configTopic message : String) :
    tsAckFrameForMessage configTopic message = [("type", "ack"), ("topic", configTopic)] ∧
    (tsAckFrameForMessage configTopic message).lookup "id" = none := by
  refine ⟨rfl, ?_⟩
  simp [tsAckFrameForMessage, List.lookup]

/-- C10: `SequencedBroadcastBatch` reads `batch.BatchID[0:16]` before any
retrieval or persistence; the guarded embedding's out-of-range branch is
taken exactly when `BatchID` has fewer than 16 bytes (with an empty
operation trace), and is unreachable whenever at least 16 bytes are
present. -/
theorem c10_theorem (env : AggEnv) (batch : BroadcastBatch) (author ptx info : String) :
    (batch.batchID.length < 16 →
      sequencedBroadcastBatch env batch author ptx info = (.sliceOutOfRange, [])) ∧
    (16 ≤ batch.batchID.length →
      (sequencedBroadcastBatch env batch author ptx info).1 ≠ .sliceOutOfRange) := by
  constructor
  · intro h
    simp [sequencedBroadcastBatch, h]
  · intro h
    have hlt : ¬batch.batchID.length < 16 := by omega
    rcases hr : env.retrieveData batch.batchPaylodRef with body | e
    · rcases hd : env.decodePayload body with _ | bd
      · simp [sequencedBroadcastBatch, hlt, hr, hd]
      · simp [sequencedBroadcastBatch, hlt, hr, hd]
    · simp [sequencedBroadcastBatch, hlt, hr]

/-- Witness for C10: a 3-byte `BatchID` takes the out-of-range branch with
no operation performed; a 16-byte `BatchID` never does. -/
theorem c10_witness :
    sequencedBroadcastBatch ⟨fun _ => .ok "", fun _ => none, fun _ _ _ _ => none⟩
        ⟨[0, 1, 2], "ref"⟩ "a" "p" "i" = (.sliceOutOfRange, []) ∧
    (sequencedBroadcastBatch ⟨fun _ => .ok "", fun _ => none, fun _ _ _ _ => none⟩
        ⟨List.replicate 16 0, "ref"⟩ "a" "p" "i").1 ≠ .sliceOutOfRange :=
  ⟨(c10_theorem _ _ "a" "p" "i").1 (by decide),
   (c10_theorem _ _ "a" "p" "i").2 (by decide)⟩

end Firefly
